import Mathlib

/-!
Shallow embedding of `src/process/tau-rpc.ts` (warelay).

The file models, from the source:
  * `normalizePiPrompt` — the prompt normalizer, over a model `JsValue` of
    JavaScript values (JSON-representable values plus `undefined`);
  * `TauRpcClient` — the line-protocol process client, as an explicit state
    record (`ClientState`) plus transition functions `handleLine`,
    `handleExit`, `handleTimeout`, `dispose` and `promptCall`, driven by an
    abstract event type `Ev`;
  * the singleton registry of `runPiRpc`, as `Registry`/`acquire`.

Platform primitives (`spawn`, `JSON.parse`, OS signal delivery) are not
re-implemented: a line-arrival event carries, next to the raw line, the
`type` field that `JSON.parse` would have produced for it (`none` when the
line is not JSON or has no string `type`).  `JSON.stringify` and `String()`
coercion, which the normalizer itself performs, are modelled directly.
-/

/-- Model of a JavaScript value as seen by `normalizePiPrompt`:
JSON-representable values plus `undefined`.  Object fields are an
association list with distinct keys (JS object property lookup). -/
inductive JsValue where
  | str (s : String)
  | num (n : Int)
  | boolean (b : Bool)
  | jsNull
  | undef
  | arr (elems : List JsValue)
  | obj (fields : List (String × JsValue))

namespace JsValue

/-- JS truthiness of a value (`if (v)`). -/
def truthy : JsValue → Bool
  | .str s => s ≠ ""
  | .num n => n ≠ 0
  | .boolean b => b
  | .jsNull => false
  | .undef => false
  | .arr _ => true
  | .obj _ => true

/-- `typeof v === "object"` (true for objects, arrays and `null`). -/
def isObjectType : JsValue → Bool
  | .jsNull => true
  | .arr _ => true
  | .obj _ => true
  | _ => false

/-- `v == null` (loose equality: `null` or `undefined`). -/
def isNullish : JsValue → Bool
  | .jsNull => true
  | .undef => true
  | _ => false

/-- Property access `v[name]`; `undefined` for missing fields and
for non-object receivers (arrays carry no named fields we model). -/
def getField (v : JsValue) (name : String) : JsValue :=
  match v with
  | .obj fields =>
      match fields.find? (fun f => f.1 = name) with
      | some f => f.2
      | none => .undef
  | _ => .undef

def isUndef : JsValue → Bool
  | .undef => true
  | _ => false

end JsValue

/-- One hex digit. -/
def hexDigit (n : Nat) : Char :=
  if n < 10 then Char.ofNat (48 + n) else Char.ofNat (87 + n)

/-- Four-digit lowercase hex, as in JSON `\uXXXX` escapes. -/
def hex4 (n : Nat) : String :=
  String.mk [hexDigit (n / 4096 % 16), hexDigit (n / 256 % 16),
             hexDigit (n / 16 % 16), hexDigit (n % 16)]

/-- JSON escaping of a single character inside a string literal. -/
def jsQuoteChar (c : Char) : String :=
  if c = '"' then "\\\""
  else if c = '\\' then "\\\\"
  else if c = '\n' then "\\n"
  else if c = '\r' then "\\r"
  else if c = '\t' then "\\t"
  else if c = '\x08' then "\\b"
  else if c = '\x0c' then "\\f"
  else if c.toNat < 32 then "\\u" ++ hex4 c.toNat
  else String.singleton c

/-- JSON rendering of a string (with surrounding quotes). -/
def jsQuote (s : String) : String :=
  "\"" ++ String.join (s.toList.map jsQuoteChar) ++ "\""

mutual

/-- Rendering of a defined value by `JSON.stringify` (inside a composite,
`undefined` renders as `null` in arrays; object fields with `undefined`
values are omitted). -/
def jstr : JsValue → String
  | .str s => jsQuote s
  | .num n => toString n
  | .boolean b => if b then "true" else "false"
  | .jsNull => "null"
  | .undef => "null"
  | .arr elems => "[" ++ jstrElems elems ++ "]"
  | .obj fields => "\x7b" ++ jstrFields fields ++ "\x7d"

def jstrElems : List JsValue → String
  | [] => ""
  | [v] => jstr v
  | v :: rest => jstr v ++ "," ++ jstrElems rest

def jstrFields : List (String × JsValue) → String
  | [] => ""
  | (k, v) :: rest =>
      if v.isUndef then jstrFields rest
      else
        let f := jsQuote k ++ ":" ++ jstr v
        match rest.filter (fun kv => !kv.2.isUndef) with
        | [] => f
        | _ => f ++ "," ++ jstrFields rest

end

/-- `JSON.stringify` at the top level: `undefined` (and only it, among the
values modelled) yields no string. -/
def jsonStringify : JsValue → Option String
  | .undef => none
  | v => some (jstr v)

mutual

/-- `String(v)` coercion (used by the normalizer's last-resort branch). -/
def jsString : JsValue → String
  | .str s => s
  | .num n => toString n
  | .boolean b => if b then "true" else "false"
  | .jsNull => "null"
  | .undef => "undefined"
  | .arr elems => jsStringElems elems
  | .obj _ => "[object Object]"

/-- Array `toString`: elements joined by commas, `null`/`undefined`
elements rendered as empty. -/
def jsStringElems : List JsValue → String
  | [] => ""
  | [.jsNull] => ""
  | [.undef] => ""
  | [v] => jsString v
  | .jsNull :: rest => "," ++ jsStringElems rest
  | .undef :: rest => "," ++ jsStringElems rest
  | v :: rest => jsString v ++ "," ++ jsStringElems rest

end

/-- JS `String.prototype.trim`: strip leading and trailing whitespace
(space, tab, CR, LF — the characters relevant to line-protocol text). -/
def jsTrim (s : String) : String :=
  String.mk (((s.toList.dropWhile Char.isWhitespace).reverse.dropWhile
    Char.isWhitespace).reverse)

/-- The normalizer's result `{ text, coerced }`. -/
structure NormalizedPrompt where
  text : String
  coerced : Bool
deriving DecidableEq, Repr

/-- Text contributed by one content part: a plain string contributes itself;
an object with a string `text` field contributes that; all else contributes
the empty string (`tau-rpc.ts` lines 43–50). -/
def partText (c : JsValue) : String :=
  match c with
  | .str s => s
  | _ =>
      if c.truthy && c.isObjectType then
        match c.getField "text" with
        | .str t => t
        | _ => ""
      else ""

/-- `normalizePiPrompt` (`tau-rpc.ts` lines 32–71): plain strings pass
through uncoerced; message-like payloads have their content parts joined
and trimmed; a string `text` field is used next; then `JSON.stringify`;
then `""` for nullish input, else `String(prompt)`. -/
def normalizePiPrompt (prompt : JsValue) : NormalizedPrompt :=
  match prompt with
  | .str s => ⟨s, false⟩
  | _ =>
      let objResult : Option NormalizedPrompt :=
        if prompt.truthy && prompt.isObjectType then
          let fromContent : Option NormalizedPrompt :=
            match prompt.getField "content" with
            | .arr parts =>
                let texts := (parts.map partText).filter (fun t => t ≠ "")
                let combined := jsTrim (String.intercalate "\n" texts)
                if combined ≠ "" then some ⟨combined, true⟩ else none
            | _ => none
          match fromContent with
          | some r => some r
          | none =>
              match prompt.getField "text" with
              | .str t => some ⟨t, true⟩
              | _ => none
        else none
      match objResult with
      | some r => r
      | none =>
          match jsonStringify prompt with
          | some json =>
              if json ≠ "" then ⟨json, true⟩
              else ⟨if prompt.isNullish then "" else jsString prompt, true⟩
          | none => ⟨if prompt.isNullish then "" else jsString prompt, true⟩

/-! ## Line-protocol process client (`TauRpcClient`) -/

/-- The result record delivered to a caller (`TauRpcResult`,
`tau-rpc.ts` lines 24–30).  Optional fields are `Option`s; `killed? :
boolean` is modelled by `killed : Option Bool` (`none` = field absent). -/
structure TauRpcResult where
  stdout : String
  stderr : String
  code : Int
  signal : Option String
  killed : Option Bool
deriving DecidableEq, Repr

/-- A settlement of the promise returned by `prompt`: fulfilled with a
result, or rejected with an error message. -/
inductive Resolution where
  | ok (r : TauRpcResult)
  | err (msg : String)
deriving DecidableEq, Repr

/-- The pending-call record (`this.pending`): the resolve/reject callbacks
are implicit in `Resolution` delivery; the armed timer is represented by
its duration `capMs`, and `hasObserver` records whether an `onEvent`
callback was supplied. -/
structure PendingCall where
  capMs : Nat
  hasObserver : Bool
deriving DecidableEq, Repr

/-- The mutable fields of a `TauRpcClient`.  `child` is `this.child ≠
null`; `childKilled` is Node's `child.killed` flag, set once the client
has invoked `kill("SIGKILL")` on the subprocess handle (only the client
ever kills it). `rl` and the never-armed `idleTimer` carry no observable
state and are omitted. -/
structure ClientState where
  child : Bool
  childKilled : Bool
  stderr : String
  buffer : List String
  pending : Option PendingCall
deriving DecidableEq, Repr

/-- External events a live client reacts to.  A `line` event carries the
raw line together with the string `type` field that `JSON.parse` yields
for it (`none` when the line is not JSON, or its `type` is not a string);
`stderrData` is a chunk on the subprocess's stderr stream; `exit` is
subprocess termination (Node reports `code` or a `signal`); `timeout` is
the armed timer firing (a JS timer can fire only while armed, and every
path that clears `pending` also clears the timer, so a `timeout` event is
a no-op when no call is pending); `disposeEv` is an external
`dispose()` call (registry replacement or `resetPiRpc`). -/
inductive Ev where
  | line (raw : String) (jsonType : Option String)
  | stderrData (s : String)
  | exit (code : Option Int) (signal : Option String)
  | timeout
  | disposeEv
deriving DecidableEq, Repr

/-- Output of one transition: the successor state, the settlements
delivered to callers, and the lines forwarded to the per-call observer. -/
structure StepOut where
  state : ClientState
  resolutions : List Resolution
  observed : List String
deriving DecidableEq, Repr

/-- `dispose` (`tau-rpc.ts` lines 198–207): close the reader, kill the
subprocess if still alive and not yet killed, null the handle, clear both
buffers.  `pending` is not touched. -/
def ClientState.dispose (st : ClientState) : ClientState :=
  { child := false
    childKilled := st.childKilled || st.child
    stderr := ""
    buffer := []
    pending := st.pending }

/-- `handleLine` (`tau-rpc.ts` lines 134–156): drop the line when no call
is pending; otherwise buffer it, forward it to the observer, and if it
parsed as JSON with `type == "agent_end"`, resolve the pending call with
the joined buffer, accumulated stderr and code 0, clearing the buffer and
cancelling the timer. -/
def handleLine (st : ClientState) (raw : String) (jsonType : Option String) :
    StepOut :=
  match st.pending with
  | none => ⟨st, [], []⟩
  | some p =>
      let buf := st.buffer ++ [raw]
      let observed := if p.hasObserver then [raw] else []
      if jsonType = some "agent_end" then
        ⟨{ st with pending := none, buffer := [] },
         [.ok ⟨String.intercalate "\n" buf, st.stderr, 0, none, none⟩],
         observed⟩
      else
        ⟨{ st with buffer := buf }, [], observed⟩

/-- The `exit` handler (`tau-rpc.ts` lines 115–131): if a call is pending,
resolve it with the joined buffer, accumulated stderr, `code ?? 0` and the
signal (exit is completion, not failure); then `dispose()`. -/
def handleExit (st : ClientState) (code : Option Int)
    (signal : Option String) : StepOut :=
  match st.pending with
  | some _ =>
      ⟨ClientState.dispose { st with pending := none },
       [.ok ⟨String.intercalate "\n" st.buffer, st.stderr,
             code.getD 0, signal, none⟩],
       []⟩
  | none => ⟨st.dispose, [], []⟩

/-- The timeout timer callback (`tau-rpc.ts` lines 189–193): clear the
pending slot, reject with an error naming the elapsed cap, and
`child.kill("SIGKILL")`.  Guarded on `pending` because the timer is armed
exactly while a call is pending. -/
def handleTimeout (st : ClientState) : StepOut :=
  match st.pending with
  | some p =>
      ⟨{ st with pending := none, childKilled := true },
       [.err ("tau rpc timed out after " ++ toString p.capMs ++ "ms")],
       []⟩
  | none => ⟨st, [], []⟩

/-- One event transition of a client. -/
def step (st : ClientState) (e : Ev) : StepOut :=
  match e with
  | .line raw jsonType => handleLine st raw jsonType
  | .stderrData s => ⟨{ st with stderr := st.stderr ++ s }, [], []⟩
  | .exit code signal => handleExit st code signal
  | .timeout => handleTimeout st
  | .disposeEv => ⟨st.dispose, [], []⟩

/-- A sequence of event transitions, accumulating settlements and
observer lines in order. -/
def runEvents (st : ClientState) : List Ev → StepOut
  | [] => ⟨st, [], []⟩
  | e :: evs =>
      let o₁ := step st e
      let o₂ := runEvents o₁.state evs
      ⟨o₂.state, o₁.resolutions ++ o₂.resolutions, o₁.observed ++ o₂.observed⟩

/-- Outcome of `prompt(...)` up to its suspension: `busy` is the
`"tau rpc already handling a request"` throw (nothing written to stdin);
`started message capMs` records that the envelope
`{"type":"prompt","message":<message>}` was written as one line to the
subprocess's stdin and a timer for `capMs` was armed. -/
inductive PromptOutcome where
  | busy
  | started (message : String) (capMs : Nat)
deriving DecidableEq, Repr

/-- The 5-minute hard ceiling on the effective timeout. -/
def hardCeilingMs : Nat := 5 * 60 * 1000

/-- `prompt` (`tau-rpc.ts` lines 158–196), up to its suspension on the
pending promise: normalize the prompt (the coercion warning is a log line,
not client state), `ensureChild()`, fail fast when a call is already
pending, else write the envelope and arm the pending record with
`capMs = min(timeoutMs, hardCeiling)`. -/
def promptCall (st : ClientState) (prompt : JsValue) (timeoutMs : Nat)
    (hasObserver : Bool) : ClientState × PromptOutcome :=
  let n := normalizePiPrompt prompt
  let st₁ := if st.child then st else { st with child := true, childKilled := false }
  if st₁.pending.isSome then
    (st₁, .busy)
  else
    let capMs := min timeoutMs hardCeilingMs
    ({ st₁ with pending := some ⟨capMs, hasObserver⟩ },
     .started n.text capMs)

/-! ## Client registry (`runPiRpc` singleton) -/

/-- The module-level singleton cache: at most one `(key, client)` pair.
Clients are identified by the order in which they were constructed
(`nextId` is the id the next `new TauRpcClient(...)` will receive). -/
structure Registry where
  singleton : Option (String × Nat)
  nextId : Nat
deriving DecidableEq, Repr

/-- The identity key of `runPiRpc` (`tau-rpc.ts` line 213):
`(cwd ?? "") + "|" + argv.join(" ")`. -/
def rpcKey (cwd : Option String) (argv : List String) : String :=
  cwd.getD "" ++ "|" ++ String.intercalate " " argv

/-- The cache step of `runPiRpc` (`tau-rpc.ts` lines 212–218): when no
client is cached or the cached key differs, dispose the old client (when
present) and cache a fresh one.  Returns the registry after the call, the
id of the client the call uses, and whether an old client was disposed. -/
def acquire (r : Registry) (cwd : Option String) (argv : List String) :
    Registry × Nat × Bool :=
  let key := rpcKey cwd argv
  match r.singleton with
  | some (k, cid) =>
      if k = key then (r, cid, false)
      else (⟨some (key, r.nextId), r.nextId + 1⟩, r.nextId, true)
  | none => (⟨some (key, r.nextId), r.nextId + 1⟩, r.nextId, false)

/-! ## Generic lemmas about the event semantics -/

/-- String prefix via the underlying character lists (kernel-computable). -/
def strPrefix (a b : String) : Bool :=
  a.toList.isPrefixOf b.toList

/-- Events that, arriving while a call is pending, settle it: a line whose
JSON `type` is `"agent_end"`, subprocess exit, or the timer firing. -/
def forcesResolution : Ev → Bool
  | .line _ jsonType => jsonType = some "agent_end"
  | .exit _ _ => true
  | .timeout => true
  | _ => false

/-- 1 when a call is pending, else 0. -/
def pendBit (st : ClientState) : Nat :=
  if st.pending.isSome then 1 else 0

theorem runEvents_append (st : ClientState) (a b : List Ev) :
    runEvents st (a ++ b) =
      ⟨(runEvents (runEvents st a).state b).state,
       (runEvents st a).resolutions ++ (runEvents (runEvents st a).state b).resolutions,
       (runEvents st a).observed ++ (runEvents (runEvents st a).state b).observed⟩ := by
  induction a generalizing st with
  | nil => simp [runEvents]
  | cons e rest ih => simp [runEvents, ih, List.append_assoc]

/-- Each transition delivers at most one settlement, and a settlement is
delivered only by consuming the pending slot. -/
theorem step_bound (st : ClientState) (e : Ev) :
    (step st e).resolutions.length + pendBit (step st e).state ≤ pendBit st := by
  cases e with
  | line raw jsonType =>
      simp only [step, handleLine]
      cases h : st.pending with
      | none => simp [pendBit, h]
      | some p =>
          by_cases hm : jsonType = some "agent_end" <;>
            simp [pendBit, h, hm]
  | stderrData s => simp [step, pendBit]
  | exit code signal =>
      simp only [step, handleExit]
      cases h : st.pending with
      | none => simp [pendBit, h, ClientState.dispose]
      | some p => simp [pendBit, h, ClientState.dispose]
  | timeout =>
      simp only [step, handleTimeout]
      cases h : st.pending with
      | none => simp [pendBit, h]
      | some p => simp [pendBit, h]
  | disposeEv => simp [step, pendBit, ClientState.dispose]

/-- Telescoped form of `step_bound` over a whole event sequence. -/
theorem runEvents_bound (evs : List Ev) (st : ClientState) :
    (runEvents st evs).resolutions.length + pendBit (runEvents st evs).state
      ≤ pendBit st := by
  induction evs generalizing st with
  | nil => simp [runEvents]
  | cons e rest ih =>
      have h₁ := step_bound st e
      have h₂ := ih (step st e).state
      simp only [runEvents, List.length_append]
      omega

/-- A non-settling event leaves the pending slot occupied. -/
theorem step_keeps_pending (st : ClientState) (e : Ev)
    (h : st.pending.isSome) (hf : forcesResolution e = false) :
    (step st e).state.pending.isSome ∧ (step st e).resolutions = [] := by
  cases e with
  | line raw jsonType =>
      simp only [forcesResolution, decide_eq_false_iff_not] at hf
      cases hp : st.pending with
      | none => rw [hp] at h; simp at h
      | some p => simp [step, handleLine, hp, hf]
  | stderrData s => simpa [step] using h
  | exit code signal => simp [forcesResolution] at hf
  | timeout => simp [forcesResolution] at hf
  | disposeEv => simpa [step, ClientState.dispose] using h

/-- A settling event arriving while a call is pending delivers a
settlement. -/
theorem step_forced (st : ClientState) (e : Ev)
    (h : st.pending.isSome) (hf : forcesResolution e = true) :
    (step st e).resolutions.length = 1 := by
  cases hp : st.pending with
  | none => rw [hp] at h; simp at h
  | some p =>
      cases e with
      | line raw jsonType =>
          simp only [forcesResolution, decide_eq_true_eq] at hf
          simp [step, handleLine, hp, hf]
      | stderrData s => simp [forcesResolution] at hf
      | exit code signal => simp [step, handleExit, hp]
      | timeout => simp [step, handleTimeout, hp]
      | disposeEv => simp [forcesResolution] at hf

/-- While a call is pending, a sequence containing a settling event
delivers at least one settlement. -/
theorem runEvents_forced (evs : List Ev) (st : ClientState)
    (h : st.pending.isSome) (hf : evs.any forcesResolution = true) :
    1 ≤ (runEvents st evs).resolutions.length := by
  induction evs generalizing st with
  | nil => simp at hf
  | cons e rest ih =>
      by_cases he : forcesResolution e = true
      · have := step_forced st e h he
        simp only [runEvents, List.length_append]
        omega
      · have hk := step_keeps_pending st e h (by simpa using he)
        have hrest : rest.any forcesResolution = true := by
          simp only [List.any_cons, Bool.or_eq_true] at hf
          rcases hf with hf | hf
          · exact absurd hf he
          · exact hf
        have := ih (step st e).state hk.1 hrest
        simp only [runEvents, List.length_append]
        omega

/-! ## Claim theorems -/

/-- C1 — Exactly-once resolution: from any state with a pending call, any
sequence of events (line arrivals, stderr chunks, exit, timeout, dispose)
delivers at most one settlement; a sequence containing a settling event
(completion marker, exit, or timer firing) delivers exactly one; and once
a settlement has been delivered, any further events deliver nothing and
leave the already-delivered settlement unchanged.  (A sequence with no
settling event leaves the call pending — not yet resolved — and the armed
timer guarantees a settling event eventually occurs in a full trace.) -/
theorem exactly_once_resolution (st : ClientState) (h : st.pending.isSome)
    (evs evs' : List Ev) (r : Resolution) :
    (runEvents st evs).resolutions.length ≤ 1
    ∧ (evs.any forcesResolution = true →
        (runEvents st evs).resolutions.length = 1)
    ∧ ((runEvents st evs).resolutions = [r] →
        (runEvents st (evs ++ evs')).resolutions = [r]) := by
  have hbit : pendBit st = 1 := by simp [pendBit, h]
  have hb := runEvents_bound evs st
  refine ⟨by omega, fun hf => ?_, fun hr => ?_⟩
  · have := runEvents_forced evs st h hf
    omega
  · have hlen : (runEvents st evs).resolutions.length = 1 := by
      rw [hr]; rfl
    have hpost : pendBit (runEvents st evs).state = 0 := by omega
    have hb' := runEvents_bound evs' (runEvents st evs).state
    have : (runEvents (runEvents st evs).state evs').resolutions = [] := by
      have : (runEvents (runEvents st evs).state evs').resolutions.length = 0 := by
        omega
      exact List.length_eq_zero.mp this
    rw [runEvents_append]
    simp [hr, this]

/-- C1 witness: a concrete pending state; an exit settles the call once,
and a later timeout neither duplicates nor changes the settlement. -/
theorem exactly_once_resolution_witness :
    ((⟨true, false, "", ["a"], some ⟨1000, false⟩⟩ : ClientState)).pending.isSome
    ∧ ((runEvents ⟨true, false, "", ["a"], some ⟨1000, false⟩⟩
          [.exit (some 0) none]).resolutions.length ≤ 1
       ∧ (([Ev.exit (some 0) none]).any forcesResolution = true →
           (runEvents ⟨true, false, "", ["a"], some ⟨1000, false⟩⟩
             [.exit (some 0) none]).resolutions.length = 1)
       ∧ ((runEvents ⟨true, false, "", ["a"], some ⟨1000, false⟩⟩
             [.exit (some 0) none]).resolutions
              = [.ok ⟨"a", "", 0, none, none⟩] →
           (runEvents ⟨true, false, "", ["a"], some ⟨1000, false⟩⟩
             ([.exit (some 0) none] ++ [.timeout])).resolutions
              = [.ok ⟨"a", "", 0, none, none⟩])) :=
  ⟨by decide,
   exactly_once_resolution ⟨true, false, "", ["a"], some ⟨1000, false⟩⟩
     (by decide) [.exit (some 0) none] [.timeout]
     (.ok ⟨"a", "", 0, none, none⟩)⟩

/-- C2 — Single-flight: a `prompt` call on a client with a live subprocess
and a pending call fails with the `AlreadyBusy` throw (`"tau rpc already
handling a request"`), writes nothing to the subprocess's stdin (the
`busy` outcome carries no write), and returns the state unchanged — in
particular the outstanding call's buffer and its eventual settlement are
untouched. -/
theorem single_flight_busy (st : ClientState) (h : st.pending.isSome)
    (hc : st.child = true) (prompt : JsValue) (timeoutMs : Nat)
    (hasObserver : Bool) :
    promptCall st prompt timeoutMs hasObserver = (st, .busy) := by
  simp [promptCall, hc, h]

/-- C2 witness: a second call on a concretely busy client is rejected with
`busy` and alters nothing. -/
theorem single_flight_busy_witness :
    ((⟨true, false, "e", ["x"], some ⟨5, true⟩⟩ : ClientState)).pending.isSome
    ∧ (⟨true, false, "e", ["x"], some ⟨5, true⟩⟩ : ClientState).child = true
    ∧ promptCall ⟨true, false, "e", ["x"], some ⟨5, true⟩⟩ (.str "second") 7 false
        = (⟨true, false, "e", ["x"], some ⟨5, true⟩⟩, .busy) :=
  ⟨by decide, by decide,
   single_flight_busy ⟨true, false, "e", ["x"], some ⟨5, true⟩⟩
     (by decide) (by decide) (.str "second") 7 false⟩

/-- C3 — Marker-triggered success: while a call is pending, a line whose
JSON `type` is `"agent_end"` settles the call with `stdout` = all buffered
lines including the marker joined by newlines, `stderr` = the accumulated
stderr, code 0; the buffer is cleared and the timer cancelled (a
subsequent firing is a no-op).  When the marker is the only buffered line,
`stdout` is exactly that line. -/
theorem marker_triggered_success (st : ClientState) (p : PendingCall)
    (h : st.pending = some p) (raw : String) :
    step st (.line raw (some "agent_end"))
      = ⟨{ st with pending := none, buffer := [] },
         [.ok ⟨String.intercalate "\n" (st.buffer ++ [raw]), st.stderr, 0,
               none, none⟩],
         if p.hasObserver then [raw] else []⟩
    ∧ (st.buffer = [] → String.intercalate "\n" (st.buffer ++ [raw]) = raw)
    ∧ handleTimeout { st with pending := none, buffer := [] }
        = ⟨{ st with pending := none, buffer := [] }, [], []⟩ := by
  refine ⟨by simp [step, handleLine, h], fun hb => ?_, by simp [handleTimeout]⟩
  rw [hb]
  rfl

/-- C3 witness: scenario D — the marker as the only emitted line yields
`stdout` equal to that line and code 0. -/
theorem marker_triggered_success_witness :
    ((⟨true, false, "E", [], some ⟨9, false⟩⟩ : ClientState)).pending
        = some ⟨9, false⟩
    ∧ step ⟨true, false, "E", [], some ⟨9, false⟩⟩
        (.line "\x7b\"type\":\"agent_end\"\x7d" (some "agent_end"))
        = ⟨⟨true, false, "E", [], none⟩,
           [.ok ⟨"\x7b\"type\":\"agent_end\"\x7d", "E", 0, none, none⟩],
           []⟩ := by
  have hth := marker_triggered_success ⟨true, false, "E", [], some ⟨9, false⟩⟩
    ⟨9, false⟩ (by decide) "\x7b\"type\":\"agent_end\"\x7d"
  exact ⟨by decide, by rw [hth.1]; decide⟩

/-- C4 — Timeout behaviour: a `prompt` call that starts a request arms its
timer with `capMs = min(timeoutMs, 5 minutes)`; if that timer fires while
the call is still pending, the pending slot is cleared, the call is
rejected with `"tau rpc timed out after <capMs>ms"` (naming the elapsed
cap), and the subprocess is killed — `childKilled := true` records the
non-graceful `kill("SIGKILL")`. -/
theorem timeout_behaviour (st st' : ClientState) (prompt : JsValue)
    (timeoutMs : Nat) (hasObserver : Bool) (message : String) (capMs : Nat)
    (h : promptCall st prompt timeoutMs hasObserver
           = (st', .started message capMs)) :
    capMs = min timeoutMs (5 * 60 * 1000)
    ∧ st'.pending = some ⟨capMs, hasObserver⟩
    ∧ handleTimeout st'
        = ⟨{ st' with pending := none, childKilled := true },
           [.err ("tau rpc timed out after " ++ toString capMs ++ "ms")],
           []⟩ := by
  have hstart : ¬ (if st.child then st
      else { st with child := true, childKilled := false }).pending.isSome := by
    by_contra hp
    simp only [promptCall] at h
    rw [if_pos (by simpa using hp)] at h
    exact PromptOutcome.noConfusion (congrArg Prod.snd h)
  simp only [promptCall] at h
  rw [if_neg hstart] at h
  obtain ⟨hst, hout⟩ := Prod.mk.injEq .. ▸ h
  obtain ⟨-, hcap⟩ := PromptOutcome.started.injEq .. ▸ hout
  subst hcap
  refine ⟨rfl, ?_, ?_⟩
  · rw [← hst]
  · rw [← hst]
    simp [handleTimeout]

/-- C4 witness: a concrete request with an over-long 10⁷ ms budget is
capped at 300000 ms, and the firing timer rejects with the message naming
the cap and kills the subprocess. -/
theorem timeout_behaviour_witness :
    promptCall ⟨false, false, "", [], none⟩ (.str "x") 10000000 false
      = (⟨true, false, "", [], some ⟨300000, false⟩⟩, .started "x" 300000)
    ∧ (300000 = min 10000000 (5 * 60 * 1000)
       ∧ (⟨true, false, "", [], some ⟨300000, false⟩⟩ : ClientState).pending
           = some ⟨300000, false⟩
       ∧ handleTimeout ⟨true, false, "", [], some ⟨300000, false⟩⟩
           = ⟨⟨true, true, "", [], none⟩,
              [.err "tau rpc timed out after 300000ms"], []⟩) := by
  have hth := timeout_behaviour ⟨false, false, "", [], none⟩
    ⟨true, false, "", [], some ⟨300000, false⟩⟩ (.str "x") 10000000 false
    "x" 300000 (by decide)
  exact ⟨by decide, hth.1, hth.2.1, by rw [hth.2.2]; decide⟩

/-- C5 — Exit-as-completion: when the subprocess terminates with exit code
`c` while a call is pending, the call is resolved (fulfilled, not
rejected) with `stdout` = the lines buffered so far joined by newlines,
the accumulated stderr, the real exit code `c` and the reported signal;
the client is then disposed: handle cleared, reader closed, buffers
emptied. -/
theorem exit_as_completion (st : ClientState) (p : PendingCall)
    (h : st.pending = some p) (c : Int) (sg : Option String) :
    step st (.exit (some c) sg)
      = ⟨⟨false, st.childKilled || st.child, "", [], none⟩,
         [.ok ⟨String.intercalate "\n" st.buffer, st.stderr, c, sg, none⟩],
         []⟩ := by
  simp [step, handleExit, h, ClientState.dispose]

/-- C5 witness: scenario F — exit with code 2 before the marker resolves
successfully with `code = 2` and the buffered line, not as a failure. -/
theorem exit_as_completion_witness :
    ((⟨true, false, "err", ["partial"], some ⟨1000, false⟩⟩ : ClientState)).pending
        = some ⟨1000, false⟩
    ∧ step ⟨true, false, "err", ["partial"], some ⟨1000, false⟩⟩
        (.exit (some 2) none)
        = ⟨⟨false, true, "", [], none⟩,
           [.ok ⟨"partial", "err", 2, none, none⟩],
           []⟩ := by
  have hth := exit_as_completion ⟨true, false, "err", ["partial"], some ⟨1000, false⟩⟩
    ⟨1000, false⟩ (by decide) 2 none
  exact ⟨by decide, by rw [hth]; decide⟩

/-- C10 — Idle output is discarded: a line arriving while no call is
pending changes nothing — it is not buffered, not forwarded to any
observer, delivers no settlement, and the run over any later events is as
if the line had never arrived (so it can never appear in a later call's
`stdout`). -/
theorem idle_line_dropped (st : ClientState) (h : st.pending = none)
    (raw : String) (jsonType : Option String) (evs : List Ev) :
    step st (.line raw jsonType) = ⟨st, [], []⟩
    ∧ runEvents st (.line raw jsonType :: evs) = runEvents st evs := by
  have h₁ : step st (.line raw jsonType) = ⟨st, [], []⟩ := by
    simp [step, handleLine, h]
  exact ⟨h₁, by simp [runEvents, h₁]⟩

/-- C10 witness: a concrete idle client drops a marker-shaped line
entirely, and a later run is unaffected by it. -/
theorem idle_line_dropped_witness :
    ((⟨true, false, "", [], none⟩ : ClientState)).pending = none
    ∧ (step ⟨true, false, "", [], none⟩
         (.line "\x7b\"type\":\"agent_end\"\x7d" (some "agent_end"))
         = ⟨⟨true, false, "", [], none⟩, [], []⟩
       ∧ runEvents ⟨true, false, "", [], none⟩
           (.line "\x7b\"type\":\"agent_end\"\x7d" (some "agent_end")
             :: [.stderrData "e"])
           = runEvents ⟨true, false, "", [], none⟩ [.stderrData "e"]) :=
  ⟨by decide,
   idle_line_dropped ⟨true, false, "", [], none⟩ (by decide)
     "\x7b\"type\":\"agent_end\"\x7d" (some "agent_end") [.stderrData "e"]⟩

/-- C6 counterexample — the claim fails on the code: the registry compares
the flattened key `(cwd ?? "") + "|" + argv.join(" ")`, not the identity
pair, and the key collides for the unequal argv vectors `["x y"]` and
`["x", "y"]`: the second call reuses the cached client (same id) and
disposes nothing, although the identities are unequal. -/
theorem identity_keyed_reuse_cex :
    (["x y"] ≠ ["x", "y"])
    ∧ (acquire (acquire ⟨none, 0⟩ (some "d") ["x y"]).1 (some "d") ["x", "y"]).2.2
        = false
    ∧ (acquire (acquire ⟨none, 0⟩ (some "d") ["x y"]).1 (some "d") ["x", "y"]).2.1
        = (acquire ⟨none, 0⟩ (some "d") ["x y"]).2.1 := by
  decide

/-- C6 amended — reuse is keyed by the flattened key
`(cwd ?? "") + "|" + argv.join(" ")`: a repeat call with the same cwd and
argv (hence the same key) reuses the cached client without disposal, and a
call whose key differs disposes the cached client and constructs a fresh
one (a different client id).  Equal `(cwd, argv)` always gives an equal
key, so equal identities do reuse; but unequal identities with colliding
keys (e.g. argv `["x y"]` vs `["x", "y"]`) also reuse. -/
theorem identity_keyed_reuse_amended (r : Registry)
    (hwf : ∀ k cid, r.singleton = some (k, cid) → cid < r.nextId)
    (cwd cwd' : Option String) (argv argv' : List String) :
    ((acquire (acquire r cwd argv).1 cwd argv).2.1 = (acquire r cwd argv).2.1
     ∧ (acquire (acquire r cwd argv).1 cwd argv).2.2 = false)
    ∧ (rpcKey cwd' argv' ≠ rpcKey cwd argv →
        (acquire (acquire r cwd argv).1 cwd' argv').2.2 = true
        ∧ (acquire (acquire r cwd argv).1 cwd' argv').2.1
            ≠ (acquire r cwd argv).2.1) := by
  obtain ⟨s, n⟩ := r
  cases s with
  | none =>
      refine ⟨⟨by simp [acquire], by simp [acquire]⟩, fun hk => ?_⟩
      have hne : ¬ (rpcKey cwd argv = rpcKey cwd' argv') := fun hh => hk hh.symm
      refine ⟨by simp [acquire, hne], ?_⟩
      simp [acquire, hne]
  | some kc =>
      obtain ⟨k, cid⟩ := kc
      have hcid : cid < n := hwf k cid rfl
      by_cases hk₀ : k = rpcKey cwd argv
      · refine ⟨⟨by simp [acquire, hk₀], by simp [acquire, hk₀]⟩, fun hk => ?_⟩
        have hne : ¬ (rpcKey cwd argv = rpcKey cwd' argv') := fun hh => hk hh.symm
        refine ⟨by simp [acquire, hk₀, hne], ?_⟩
        simp [acquire, hk₀, hne]
        omega
      · refine ⟨⟨by simp [acquire, hk₀], by simp [acquire, hk₀]⟩, fun hk => ?_⟩
        have hne : ¬ (rpcKey cwd argv = rpcKey cwd' argv') := fun hh => hk hh.symm
        refine ⟨by simp [acquire, hk₀, hne], ?_⟩
        simp [acquire, hk₀, hne]

/-- C6 amended witness: from an empty registry, repeating `(cwd "d",
argv ["a"])` reuses client 0 without disposal, and switching to argv
`["b"]` (a different key) disposes and constructs client 1. -/
theorem identity_keyed_reuse_amended_witness :
    ((acquire (acquire ⟨none, 0⟩ (some "d") ["a"]).1 (some "d") ["a"]).2.1
        = (acquire ⟨none, 0⟩ (some "d") ["a"]).2.1
     ∧ (acquire (acquire ⟨none, 0⟩ (some "d") ["a"]).1 (some "d") ["a"]).2.2
        = false)
    ∧ (rpcKey (some "d") ["b"] ≠ rpcKey (some "d") ["a"] →
        (acquire (acquire ⟨none, 0⟩ (some "d") ["a"]).1 (some "d") ["b"]).2.2
            = true
        ∧ (acquire (acquire ⟨none, 0⟩ (some "d") ["a"]).1 (some "d") ["b"]).2.1
            ≠ (acquire ⟨none, 0⟩ (some "d") ["a"]).2.1) :=
  identity_keyed_reuse_amended ⟨none, 0⟩
    (fun _ _ h => Option.noConfusion h) (some "d") (some "d") ["a"] ["b"]

/-- C7 counterexample — the claim fails on the code for `null`:
`JSON.stringify(null)` is the non-empty string `"null"`, so the
serialization branch fires and the normalizer returns
`{text: "null", coerced: true}`, not `{text: "", coerced: true}`. -/
theorem normalizer_null_cex :
    normalizePiPrompt .jsNull = ⟨"null", true⟩
    ∧ normalizePiPrompt .jsNull ≠ ⟨"", true⟩ := by
  decide

/-- Every result the normalizer produces for an object input is flagged
as coerced: all constructing branches carry `coerced := true`. -/
theorem normalizer_obj_coerced (fields : List (String × JsValue)) :
    (normalizePiPrompt (.obj fields)).coerced = true := by
  simp only [normalizePiPrompt, JsValue.truthy, JsValue.isObjectType,
    Bool.and_self, if_true]
  split
  · next r heq =>
      repeat' split at heq
      all_goals
        first
          | (rw [← Option.some.inj heq]; done)
          | (rw [← Option.some.inj heq]; rfl)
          | (rw [← heq]; done)
          | (rw [← heq]; rfl)
          | (simp_all; done)
          | ((try rw [← Option.some.inj heq])
             (try rw [← heq])
             rename_i heqI
             repeat' split at heqI
             all_goals
               first
                 | (rw [← Option.some.inj heqI]; done)
                 | (rw [← Option.some.inj heqI]; rfl)
                 | (rw [← heqI]; done)
                 | (rw [← heqI]; rfl)
                 | (simp_all; done))
  · simp only [jsonStringify]
    split <;> rfl

/-- C7 amended — `normalizePiPrompt` is total (defined on every modelled
input, never failing): plain strings pass through with `coerced = false`
and every other input yields a result flagged `coerced = true`; for
`undefined` it returns `{text: "", coerced: true}`, while for `null` it
returns `{text: "null", coerced: true}` (the JSON serialization of
`null`), which is the worst case for a nullish input. -/
theorem normalizer_worst_case_amended :
    normalizePiPrompt .undef = ⟨"", true⟩
    ∧ normalizePiPrompt .jsNull = ⟨"null", true⟩
    ∧ ∀ v : JsValue, (∃ s, v = .str s ∧ normalizePiPrompt v = ⟨s, false⟩)
        ∨ (normalizePiPrompt v).coerced = true := by
  refine ⟨by decide, by decide, fun v => ?_⟩
  cases v with
  | str s => exact Or.inl ⟨s, rfl, rfl⟩
  | num n =>
      refine Or.inr ?_
      simp only [normalizePiPrompt, JsValue.truthy, JsValue.isObjectType,
        Bool.and_false, jsonStringify]
      split
      · next r heq => simp at heq
      · split <;> rfl
  | boolean b =>
      refine Or.inr ?_
      simp only [normalizePiPrompt, JsValue.truthy, JsValue.isObjectType,
        Bool.and_false, jsonStringify]
      split
      · next r heq => simp at heq
      · split <;> rfl
  | jsNull => exact Or.inr (by decide)
  | undef => exact Or.inr (by decide)
  | arr elems =>
      refine Or.inr ?_
      simp only [normalizePiPrompt, JsValue.truthy, JsValue.isObjectType,
        JsValue.getField, Bool.and_self, jsonStringify]
      split
      · next r heq => simp at heq
      · split <;> rfl
  | obj fields => exact Or.inr (normalizer_obj_coerced fields)

/-- C8 counterexample — the claim fails on the code: a registry disposal
while a call is pending sends `SIGKILL` to the live subprocess
(`childKilled = true` records the forcible kill), and the subsequent exit
event resolves the still-pending call with a result whose `killed` field
is absent (`none`), although the core forcibly terminated the
subprocess. -/
theorem killed_field_cex :
    (runEvents (promptCall ⟨false, false, "", [], none⟩ (.str "hi") 1000
        false).1 [.disposeEv, .exit none (some "SIGKILL")]).state.childKilled
      = true
    ∧ (runEvents (promptCall ⟨false, false, "", [], none⟩ (.str "hi") 1000
        false).1 [.disposeEv, .exit none (some "SIGKILL")]).resolutions
      = [.ok ⟨"", "", 0, some "SIGKILL", none⟩] := by
  decide

/-- Every fulfilled result has its optional `killed` field unset. -/
def resolutionKilledUnset : Resolution → Bool
  | .ok r => r.killed = none
  | .err _ => true

/-- C8 amended — no code path populates `killed`: every result any event
sequence delivers, from any state, has the `killed` field absent — both
when the core forcibly terminated the subprocess and when it did not. -/
theorem killed_never_set (st : ClientState) (evs : List Ev) :
    (runEvents st evs).resolutions.all resolutionKilledUnset = true := by
  induction evs generalizing st with
  | nil => simp [runEvents]
  | cons e rest ih =>
      have hstep : (step st e).resolutions.all resolutionKilledUnset = true := by
        cases e with
        | line raw jsonType =>
            cases hp : st.pending with
            | none => simp [step, handleLine, hp]
            | some p =>
                by_cases hm : jsonType = some "agent_end" <;>
                  simp [step, handleLine, hp, hm, resolutionKilledUnset]
        | stderrData s => simp [step]
        | exit code signal =>
            cases hp : st.pending with
            | none => simp [step, handleExit, hp]
            | some p => simp [step, handleExit, hp, resolutionKilledUnset]
        | timeout =>
            cases hp : st.pending with
            | none => simp [step, handleTimeout, hp]
            | some p => simp [step, handleTimeout, hp, resolutionKilledUnset]
        | disposeEv => simp [step]
      simp only [runEvents, List.all_append, Bool.and_eq_true]
      exact ⟨hstep, ih (step st e).state⟩

/-! ## Stderr accumulation (claim C9) -/

/-- Events that neither exit nor dispose — the ones compatible with the
subprocess staying alive (only `exit` and `dispose` clear `stderr`). -/
def nonClearing : Ev → Bool
  | .exit _ _ => false
  | .disposeEv => false
  | _ => true

theorem strPrefix_append_right (a t : String) :
    strPrefix a (a ++ t) = true := by
  obtain ⟨la⟩ := a
  obtain ⟨lt⟩ := t
  simp only [strPrefix, List.isPrefixOf_iff_prefix]
  exact ⟨lt, rfl⟩

theorem promptCall_stderr (st : ClientState) (prompt : JsValue)
    (timeoutMs : Nat) (hasObserver : Bool) :
    (promptCall st prompt timeoutMs hasObserver).1.stderr = st.stderr := by
  simp only [promptCall]
  split <;> split <;> rfl

/-- A non-clearing event only extends the accumulated stderr. -/
theorem step_stderr_ext (st : ClientState) (e : Ev)
    (h : nonClearing e = true) :
    ∃ t, (step st e).state.stderr = st.stderr ++ t := by
  cases e with
  | line raw jsonType =>
      cases hp : st.pending with
      | none => exact ⟨"", by simp [step, handleLine, hp]⟩
      | some p =>
          by_cases hm : jsonType = some "agent_end"
          · exact ⟨"", by simp [step, handleLine, hp, hm]⟩
          · exact ⟨"", by simp [step, handleLine, hp, hm]⟩
  | stderrData s => exact ⟨s, by simp [step]⟩
  | exit code signal => simp [nonClearing] at h
  | timeout =>
      cases hp : st.pending with
      | none => exact ⟨"", by simp [step, handleTimeout, hp]⟩
      | some p => exact ⟨"", by simp [step, handleTimeout, hp]⟩
  | disposeEv => simp [nonClearing] at h

/-- A non-clearing event fulfils a call (if at all) with exactly the
stderr accumulated so far. -/
theorem step_ok_stderr (st : ClientState) (e : Ev)
    (h : nonClearing e = true) (r : TauRpcResult)
    (hmem : Resolution.ok r ∈ (step st e).resolutions) :
    r.stderr = st.stderr := by
  cases e with
  | line raw jsonType =>
      cases hp : st.pending with
      | none => simp [step, handleLine, hp] at hmem
      | some p =>
          by_cases hm : jsonType = some "agent_end"
          · simp [step, handleLine, hp, hm] at hmem
            rw [hmem]
          · simp [step, handleLine, hp, hm] at hmem
  | stderrData s => simp [step] at hmem
  | exit code signal => simp [nonClearing] at h
  | timeout =>
      cases hp : st.pending with
      | none => simp [step, handleTimeout, hp] at hmem
      | some p => simp [step, handleTimeout, hp] at hmem
  | disposeEv => simp [step] at hmem

/-- Over non-clearing events the accumulated stderr only grows. -/
theorem runEvents_stderr_ext (evs : List Ev) (st : ClientState)
    (h : evs.all nonClearing = true) :
    ∃ t, (runEvents st evs).state.stderr = st.stderr ++ t := by
  induction evs generalizing st with
  | nil => exact ⟨"", by simp [runEvents]⟩
  | cons e rest ih =>
      simp only [List.all_cons, Bool.and_eq_true] at h
      obtain ⟨t₁, ht₁⟩ := step_stderr_ext st e h.1
      obtain ⟨t₂, ht₂⟩ := ih (step st e).state h.2
      exact ⟨t₁ ++ t₂, by
        simp only [runEvents]
        rw [ht₂, ht₁, String.append_assoc]⟩

/-- Over non-clearing events, every fulfilled result carries a stderr
that extends the stderr accumulated at the start. -/
theorem runEvents_ok_stderr (evs : List Ev) (st : ClientState)
    (h : evs.all nonClearing = true) (r : TauRpcResult)
    (hmem : Resolution.ok r ∈ (runEvents st evs).resolutions) :
    ∃ t, r.stderr = st.stderr ++ t := by
  induction evs generalizing st with
  | nil => simp [runEvents] at hmem
  | cons e rest ih =>
      simp only [List.all_cons, Bool.and_eq_true] at h
      simp only [runEvents, List.mem_append] at hmem
      cases hmem with
      | inl hm =>
          exact ⟨"", by rw [step_ok_stderr st e h.1 r hm, String.append_empty]⟩
      | inr hm =>
          obtain ⟨t₁, ht₁⟩ := step_stderr_ext st e h.1
          obtain ⟨t₂, ht₂⟩ := ih (step st e).state h.2 hm
          exact ⟨t₁ ++ t₂, by rw [ht₂, ht₁, String.append_assoc]⟩

/-- C9 — stderr is process-scoped, not call-scoped: a marker-triggered
resolution delivers the accumulated stderr and does not clear it (only
`exit`/`dispose` clear it); consequently, when a first call resolves via
the marker and a second call is then issued on the same still-live
subprocess (no exit or dispose in between), the second call's fulfilled
result carries the first call's stderr as a prefix. -/
theorem stderr_process_scoped (st : ClientState) (p : PendingCall)
    (h : st.pending = some p) (raw : String) (evs₁ : List Ev)
    (prompt₂ : JsValue) (timeoutMs : Nat) (hasObserver : Bool)
    (evs₂ : List Ev)
    (h₁ : evs₁.all nonClearing = true) (h₂ : evs₂.all nonClearing = true)
    (r₂ : TauRpcResult)
    (hmem : Resolution.ok r₂ ∈
      (runEvents (promptCall (runEvents (step st
          (.line raw (some "agent_end"))).state evs₁).state
          prompt₂ timeoutMs hasObserver).1 evs₂).resolutions) :
    (step st (.line raw (some "agent_end"))).resolutions
      = [.ok ⟨String.intercalate "\n" (st.buffer ++ [raw]), st.stderr, 0,
             none, none⟩]
    ∧ strPrefix st.stderr r₂.stderr = true := by
  refine ⟨by simp [step, handleLine, h], ?_⟩
  have e₀ : (step st (.line raw (some "agent_end"))).state.stderr
      = st.stderr := by
    simp [step, handleLine, h]
  obtain ⟨t₁, ht₁⟩ :=
    runEvents_stderr_ext evs₁ (step st (.line raw (some "agent_end"))).state h₁
  obtain ⟨t₂, ht₂⟩ := runEvents_ok_stderr evs₂ _ h₂ r₂ hmem
  rw [ht₂, promptCall_stderr, ht₁, e₀, String.append_assoc]
  exact strPrefix_append_right st.stderr (t₁ ++ t₂)

/-- C9 witness: stderr `"E1"` delivered during a first (marker-resolved)
call appears as a prefix of the second call's result stderr `"E1E2"`. -/
theorem stderr_process_scoped_witness :
    ((⟨true, false, "E1", [], some ⟨9, false⟩⟩ : ClientState)).pending
        = some ⟨9, false⟩
    ∧ ([] : List Ev).all nonClearing = true
    ∧ ([Ev.stderrData "E2",
        Ev.line "\x7b\"type\":\"agent_end\"\x7d" (some "agent_end")]).all
        nonClearing = true
    ∧ Resolution.ok ⟨"\x7b\"type\":\"agent_end\"\x7d", "E1E2", 0, none, none⟩ ∈
        (runEvents (promptCall (runEvents (step
            ⟨true, false, "E1", [], some ⟨9, false⟩⟩
            (.line "\x7b\"type\":\"agent_end\"\x7d" (some "agent_end"))).state
            []).state (.str "again") 1000 false).1
          [Ev.stderrData "E2",
           Ev.line "\x7b\"type\":\"agent_end\"\x7d" (some "agent_end")]).resolutions
    ∧ ((step ⟨true, false, "E1", [], some ⟨9, false⟩⟩
          (.line "\x7b\"type\":\"agent_end\"\x7d" (some "agent_end"))).resolutions
        = [.ok ⟨"\x7b\"type\":\"agent_end\"\x7d", "E1", 0, none, none⟩]
       ∧ strPrefix "E1" "E1E2" = true) := by
  have hth := stderr_process_scoped ⟨true, false, "E1", [], some ⟨9, false⟩⟩
    ⟨9, false⟩ (by decide) "\x7b\"type\":\"agent_end\"\x7d" [] (.str "again")
    1000 false
    [Ev.stderrData "E2",
     Ev.line "\x7b\"type\":\"agent_end\"\x7d" (some "agent_end")]
    (by decide) (by decide)
    ⟨"\x7b\"type\":\"agent_end\"\x7d", "E1E2", 0, none, none⟩ (by decide)
  exact ⟨by decide, by decide, by decide, by decide, by rw [hth.1]; decide, hth.2⟩
